import Mathlib

/-!
Shallow embedding of measureme's `src/event_id.rs`: the `EventId` value type
and the `EventIdBuilder` composition logic, together with spec-modelled
versions of the external collaborators (`StringId`, `StringComponent`, and
the interning pool reached through `Profiler.alloc_string`).  The pool is
modelled as explicit state; every `alloc_string` invocation is recorded in a
call trace so that call-count and frame properties can be stated.
-/

/-- Modelled from the spec: `StringId` is a 32-bit opaque identifier into the
session's interning pool with identity-based equality; its definition lives
outside `event_id.rs`.  We carry the raw numeric value as a natural number. -/
structure StringId where
  raw : Nat
  deriving DecidableEq, Repr

/-- Modelled from the spec: the reserved invalid sentinel value of `StringId`.
The spec fixes its existence, not its numeric value; we use the all-ones
32-bit pattern. -/
def StringId.INVALID : StringId := ⟨4294967295⟩

/-- Modelled from the spec: the raw constructor used by trusted
deserialization paths. -/
def StringId.new (raw : Nat) : StringId := ⟨raw⟩

/-- Modelled from the spec: the stable raw 32-bit view of a `StringId`. -/
def StringId.as_u32 (s : StringId) : Nat := s.raw

/-- Modelled from the spec: a transient description of one component of a
concatenation request to the interning pool — either a reference to an
already-interned string or an inline literal. -/
inductive StringComponent where
  | Ref (id : StringId)
  | Value (text : String)
  deriving DecidableEq, Repr

/-- The byte used to separate arguments from the label and each other
(`SEPARATOR_BYTE` in `event_id.rs`). -/
def SEPARATOR_BYTE : String := "\x1E"

/-- Modelled from the spec: the state of the session's interning pool.  The
`strings` table maps a handle's raw value (its index) to the interned text;
`calls` records the component sequence of every `alloc_string` invocation. -/
structure Profiler where
  strings : List String
  calls : List (List StringComponent)

/-- Modelled from the spec: the text an interned handle resolves to
(out-of-range handles resolve to the empty string). -/
def Profiler.resolve (p : Profiler) (s : StringId) : String :=
  p.strings.getD s.raw ""

/-- Modelled from the spec: the text a single component contributes to the
concatenation. -/
def Profiler.resolveComponent (p : Profiler) (c : StringComponent) : String :=
  match c with
  | StringComponent.Ref i => p.resolve i
  | StringComponent.Value text => text

/-- Concatenation of a list of strings, in order. -/
def concatAll : List String → String
  | [] => ""
  | s :: rest => s ++ concatAll rest

/-- Modelled from the spec: index of the first occurrence of a string in the
pool's table, if present (the pool deduplicates identical text). -/
def internIdx : List String → String → Option Nat
  | [], _ => none
  | s :: rest, t => if s = t then some 0 else Option.map (fun i => i + 1) (internIdx rest t)

/-- Modelled from the spec: `alloc_string` concatenates all components in
order, interns the result if not already present, and returns a stable
handle; the invocation is recorded in the call trace. -/
def Profiler.alloc_string (p : Profiler) (components : List StringComponent) :
    StringId × Profiler :=
  match internIdx p.strings (concatAll (components.map p.resolveComponent)) with
  | some i => (⟨i⟩, ⟨p.strings, p.calls ++ [components]⟩)
  | none =>
      (⟨p.strings.length⟩,
       ⟨p.strings ++ [concatAll (components.map p.resolveComponent)],
        p.calls ++ [components]⟩)

/-- An `EventId` is a `StringId` with the additional guarantee (by
construction path, not by check) that the corresponding string conforms to
the event-id grammar. -/
structure EventId where
  sid : StringId
  deriving DecidableEq, Repr

/-- `EventId::INVALID`. -/
def EventId.INVALID : EventId := ⟨StringId.INVALID⟩

/-- `EventId::to_string_id`: pure projection to the wrapped `StringId`. -/
def EventId.to_string_id (e : EventId) : StringId := e.sid

/-- `EventId::as_u32`: raw 32-bit view of the wrapped `StringId`. -/
def EventId.as_u32 (e : EventId) : Nat := e.sid.as_u32

/-- `EventId::from_label`: wraps an already-interned label. -/
def EventId.from_label (label : StringId) : EventId := ⟨label⟩

/-- `EventId::from_virtual`: wraps a virtual string id. -/
def EventId.from_virtual (virtual_id : StringId) : EventId := ⟨virtual_id⟩

/-- `EventId::from_u32`: reconstructs an `EventId` from a raw value. -/
def EventId.from_u32 (raw_id : Nat) : EventId := ⟨StringId.new raw_id⟩

/-- Representation of a `SmallVec` of `StringComponent`s: either still inside
the fixed-capacity inline buffer or spilled to the heap. -/
inductive SmallVecSC where
  | inline (cap : Nat) (data : List StringComponent)
  | heap (data : List StringComponent)

/-- `SmallVec::with_capacity`: stays inline when the requested capacity fits
the inline buffer, otherwise allocates on the heap up front. -/
def SmallVecSC.with_capacity (inlineCap requested : Nat) : SmallVecSC :=
  if requested ≤ inlineCap then SmallVecSC.inline inlineCap [] else SmallVecSC.heap []

/-- `SmallVec::push`: appends an element, spilling to the heap when the
inline buffer is full. -/
def SmallVecSC.push (v : SmallVecSC) (x : StringComponent) : SmallVecSC :=
  match v with
  | SmallVecSC.inline cap d =>
      if d.length + 1 ≤ cap then SmallVecSC.inline cap (d ++ [x])
      else SmallVecSC.heap (d ++ [x])
  | SmallVecSC.heap d => SmallVecSC.heap (d ++ [x])

/-- The element sequence a `SmallVec` holds, independent of representation. -/
def SmallVecSC.toList : SmallVecSC → List StringComponent
  | SmallVecSC.inline _ d => d
  | SmallVecSC.heap d => d

/-- `EventIdBuilder`: binds the session's interning pool. -/
structure EventIdBuilder where
  profiler : Profiler

/-- `EventIdBuilder::new`. -/
def EventIdBuilder.new (profiler : Profiler) : EventIdBuilder := ⟨profiler⟩

/-- `EventIdBuilder::from_label`: just forwards the string id; a single
identifier is a valid event id, so no pool call is made and the pool state is
returned unchanged. -/
def EventIdBuilder.from_label (b : EventIdBuilder) (label : StringId) :
    EventId × Profiler :=
  (EventId.from_label label, b.profiler)

/-- `EventIdBuilder::from_label_and_arg`: one `alloc_string` call on the
component sequence label, separator, argument. -/
def EventIdBuilder.from_label_and_arg (b : EventIdBuilder) (label arg : StringId) :
    EventId × Profiler :=
  let r := b.profiler.alloc_string
    [StringComponent.Ref label, StringComponent.Value SEPARATOR_BYTE,
     StringComponent.Ref arg]
  (⟨r.1⟩, r.2)

/-- `EventIdBuilder::from_label_and_args`: builds the component list in a
`SmallVec` with inline capacity 7 (1 label + 3 arguments + 3 separators),
reserving `1 + args.len() * 2` slots, pushing the label and then, for each
argument in order, a separator and the argument, and issues one
`alloc_string` call on the resulting sequence. -/
def EventIdBuilder.from_label_and_args (b : EventIdBuilder) (label : StringId)
    (args : List StringId) : EventId × Profiler :=
  let parts := SmallVecSC.with_capacity 7 (1 + args.length * 2)
  let parts := parts.push (StringComponent.Ref label)
  let parts := args.foldl
    (fun ps arg =>
      (ps.push (StringComponent.Value SEPARATOR_BYTE)).push (StringComponent.Ref arg))
    parts
  let r := b.profiler.alloc_string parts.toList
  (⟨r.1⟩, r.2)

/-- Plain-list version of `from_label_and_args` with no inline buffer, used
to state that the small-buffer optimization is observationally irrelevant. -/
def EventIdBuilder.from_label_and_args_plain (b : EventIdBuilder) (label : StringId)
    (args : List StringId) : EventId × Profiler :=
  let parts : List StringComponent := [StringComponent.Ref label]
  let parts := args.foldl
    (fun ps arg =>
      ps ++ [StringComponent.Value SEPARATOR_BYTE, StringComponent.Ref arg])
    parts
  let r := b.profiler.alloc_string parts
  (⟨r.1⟩, r.2)

/-- The alternating separator/argument component sequence contributed by an
argument list: for each argument in order, `Value SEPARATOR_BYTE` then
`Ref arg`. -/
def argComponents : List StringId → List StringComponent
  | [] => []
  | a :: rest =>
      StringComponent.Value SEPARATOR_BYTE :: StringComponent.Ref a :: argComponents rest

theorem SmallVecSC.toList_push (v : SmallVecSC) (x : StringComponent) :
    (v.push x).toList = v.toList ++ [x] := by
  cases v with
  | inline cap d =>
      simp only [SmallVecSC.push]
      split <;> rfl
  | heap d => rfl

theorem toList_foldl_pushPair (args : List StringId) (v : SmallVecSC) :
    (args.foldl
        (fun ps arg =>
          (ps.push (StringComponent.Value SEPARATOR_BYTE)).push (StringComponent.Ref arg))
        v).toList
      = v.toList ++ argComponents args := by
  induction args generalizing v with
  | nil => simp [argComponents]
  | cons a rest ih =>
      simp only [List.foldl_cons, argComponents]
      rw [ih, SmallVecSC.toList_push, SmallVecSC.toList_push]
      simp

theorem foldl_append_pair (args : List StringId) (init : List StringComponent) :
    args.foldl
        (fun ps arg =>
          ps ++ [StringComponent.Value SEPARATOR_BYTE, StringComponent.Ref arg])
        init
      = init ++ argComponents args := by
  induction args generalizing init with
  | nil => simp [argComponents]
  | cons a rest ih =>
      simp only [List.foldl_cons, argComponents]
      rw [ih]
      simp

theorem from_label_and_args_eq_alloc (b : EventIdBuilder) (label : StringId)
    (args : List StringId) :
    EventIdBuilder.from_label_and_args b label args
      = ((⟨(b.profiler.alloc_string
              (StringComponent.Ref label :: argComponents args)).1⟩ : EventId),
         (b.profiler.alloc_string
              (StringComponent.Ref label :: argComponents args)).2) := by
  simp only [EventIdBuilder.from_label_and_args]
  rw [toList_foldl_pushPair, SmallVecSC.toList_push]
  have h : (SmallVecSC.with_capacity 7 (1 + args.length * 2)).toList = [] := by
    simp only [SmallVecSC.with_capacity]
    split <;> rfl
  rw [h]
  rfl

theorem internIdx_getD (l : List String) (t : String) (i : Nat)
    (h : internIdx l t = some i) : l.getD i "" = t := by
  induction l generalizing i with
  | nil => simp [internIdx] at h
  | cons s rest ih =>
      by_cases hs : s = t
      · simp only [internIdx, if_pos hs, Option.some.injEq] at h
        subst h
        simpa using hs
      · rw [internIdx, if_neg hs, Option.map_eq_some'] at h
        obtain ⟨j, hj, hji⟩ := h
        subst hji
        simpa using ih j hj

theorem getD_append_length (l : List String) (t : String) :
    (l ++ [t]).getD l.length "" = t := by
  induction l with
  | nil => rfl
  | cons s rest ih => simp [ih]

theorem alloc_string_calls (p : Profiler) (cs : List StringComponent) :
    (p.alloc_string cs).2.calls = p.calls ++ [cs] := by
  cases h : internIdx p.strings (concatAll (cs.map p.resolveComponent)) with
  | none => simp [Profiler.alloc_string, h]
  | some i => simp [Profiler.alloc_string, h]

theorem alloc_string_resolve (p : Profiler) (cs : List StringComponent) :
    (p.alloc_string cs).2.resolve (p.alloc_string cs).1
      = concatAll (cs.map p.resolveComponent) := by
  cases h : internIdx p.strings (concatAll (cs.map p.resolveComponent)) with
  | none =>
      simp only [Profiler.alloc_string, h, Profiler.resolve]
      exact getD_append_length _ _
  | some i =>
      simp only [Profiler.alloc_string, h, Profiler.resolve]
      exact internIdx_getD _ _ _ h

theorem concatAll_argComponents (p : Profiler) (args : List StringId) :
    concatAll ((argComponents args).map p.resolveComponent)
      = concatAll (args.map (fun a => SEPARATOR_BYTE ++ p.resolve a)) := by
  induction args with
  | nil => rfl
  | cons a rest ih =>
      simp only [argComponents, List.map_cons, concatAll, Profiler.resolveComponent]
      rw [ih, String.append_assoc]

/-- Claim C1: `from_label_and_args(label, args)` issues exactly one
`alloc_string` call, whose component sequence is `Ref label` followed, for
each argument in input order, by `Value SEPARATOR_BYTE` then `Ref arg`
(`argComponents`), and the returned id resolves to the label's text followed
by a separator and each argument's text, in order. -/
theorem from_label_and_args_single_call_and_text (b : EventIdBuilder)
    (label : StringId) (args : List StringId) :
    (EventIdBuilder.from_label_and_args b label args).2.calls
        = b.profiler.calls ++ [StringComponent.Ref label :: argComponents args]
      ∧ (EventIdBuilder.from_label_and_args b label args).2.resolve
          (EventIdBuilder.from_label_and_args b label args).1.to_string_id
        = b.profiler.resolve label
            ++ concatAll (args.map (fun a => SEPARATOR_BYTE ++ b.profiler.resolve a)) := by
  rw [from_label_and_args_eq_alloc]
  refine ⟨alloc_string_calls _ _, ?_⟩
  show (b.profiler.alloc_string (StringComponent.Ref label :: argComponents args)).2.resolve
      (b.profiler.alloc_string (StringComponent.Ref label :: argComponents args)).1
    = b.profiler.resolve label
        ++ concatAll (args.map (fun a => SEPARATOR_BYTE ++ b.profiler.resolve a))
  rw [alloc_string_resolve]
  simp only [List.map_cons, concatAll, Profiler.resolveComponent]
  rw [concatAll_argComponents]

/-- Claim C2: `as_u32` and `from_u32` round-trip exactly in both
directions. -/
theorem as_u32_from_u32_round_trip :
    (∀ e : EventId, EventId.from_u32 e.as_u32 = e)
      ∧ ∀ r : Nat, (EventId.from_u32 r).as_u32 = r :=
  ⟨fun _ => rfl, fun _ => rfl⟩

/-- Claim C3: `from_label_and_args` with an empty argument list resolves to
exactly the text of `from_label`, with no separator bytes appended. -/
theorem from_label_and_args_nil_matches_from_label_text (b : EventIdBuilder)
    (label : StringId) :
    (EventIdBuilder.from_label_and_args b label []).2.resolve
        (EventIdBuilder.from_label_and_args b label []).1.to_string_id
      = b.profiler.resolve (EventIdBuilder.from_label b label).1.to_string_id := by
  rw [from_label_and_args_eq_alloc]
  show (b.profiler.alloc_string [StringComponent.Ref label]).2.resolve
      (b.profiler.alloc_string [StringComponent.Ref label]).1
    = b.profiler.resolve label
  rw [alloc_string_resolve]
  simp only [List.map_cons, List.map_nil, concatAll, Profiler.resolveComponent]
  exact String.append_empty _

/-- Claim C4: `from_label_and_arg` makes exactly one pool call on
`[Ref label, Value SEPARATOR_BYTE, Ref arg]`, wraps the pool's result, and
is equal (result and pool state) to `from_label_and_args` on the singleton
argument list. -/
theorem from_label_and_arg_single_call_agrees_with_args (b : EventIdBuilder)
    (label arg : StringId) :
    (EventIdBuilder.from_label_and_arg b label arg).2.calls
        = b.profiler.calls
            ++ [[StringComponent.Ref label, StringComponent.Value SEPARATOR_BYTE,
                 StringComponent.Ref arg]]
      ∧ (EventIdBuilder.from_label_and_arg b label arg).1
          = ⟨(b.profiler.alloc_string
                [StringComponent.Ref label, StringComponent.Value SEPARATOR_BYTE,
                 StringComponent.Ref arg]).1⟩
      ∧ EventIdBuilder.from_label_and_arg b label arg
          = EventIdBuilder.from_label_and_args b label [arg] := by
  refine ⟨alloc_string_calls _ _, rfl, ?_⟩
  rw [from_label_and_args_eq_alloc]
  rfl

/-- Claim C5: `from_label(l).to_string_id() = l` — `from_label` wraps the
handle unchanged and `to_string_id` recovers it. -/
theorem from_label_to_string_id_roundtrip (l : StringId) :
    (EventId.from_label l).to_string_id = l := rfl

/-- Claim C6: `EventId.INVALID` wraps exactly `StringId.INVALID`, and its
`as_u32` equals the sentinel's raw value. -/
theorem INVALID_wraps_invalid_sentinel :
    EventId.INVALID = ⟨StringId.INVALID⟩
      ∧ EventId.INVALID.as_u32 = StringId.INVALID.as_u32 :=
  ⟨rfl, rfl⟩

/-- Claim C7: `from_virtual` returns exactly the same `EventId` as
`from_label` on every input. -/
theorem from_virtual_eq_from_label (s : StringId) :
    EventId.from_virtual s = EventId.from_label s := rfl

/-- Claim C8: `from_label_and_args` (built through the capacity-7 inline
buffer that spills to the heap) computes the same result — same component
sequence to the pool, hence same resolved text, same returned id, same pool
state — as the plain-list version for every argument count; crossing the
inline threshold changes no observable behavior. -/
theorem from_label_and_args_inline_buffer_unobservable (b : EventIdBuilder)
    (label : StringId) (args : List StringId) :
    EventIdBuilder.from_label_and_args b label args
      = EventIdBuilder.from_label_and_args_plain b label args := by
  rw [from_label_and_args_eq_alloc]
  simp only [EventIdBuilder.from_label_and_args_plain]
  rw [foldl_append_pair]
  rfl

/-- Claim C9: every operation of `EventId` and `EventIdBuilder` is total:
for every input — including arbitrary raw values to `from_u32` and the
invalid sentinel, which are covered by the universal quantifiers — it
returns a result, with no error value or failure branch. -/
theorem all_operations_total :
    (∃ e, EventId.INVALID = e)
      ∧ (∀ e : EventId, ∃ s, e.to_string_id = s)
      ∧ (∀ e : EventId, ∃ n, e.as_u32 = n)
      ∧ (∀ l : StringId, ∃ e, EventId.from_label l = e)
      ∧ (∀ v : StringId, ∃ e, EventId.from_virtual v = e)
      ∧ (∀ r : Nat, ∃ e, EventId.from_u32 r = e)
      ∧ (∀ p : Profiler, ∃ b, EventIdBuilder.new p = b)
      ∧ (∀ (b : EventIdBuilder) (label : StringId),
          ∃ r, EventIdBuilder.from_label b label = r)
      ∧ (∀ (b : EventIdBuilder) (label arg : StringId),
          ∃ r, EventIdBuilder.from_label_and_arg b label arg = r)
      ∧ ∀ (b : EventIdBuilder) (label : StringId) (args : List StringId),
          ∃ r, EventIdBuilder.from_label_and_args b label args = r :=
  ⟨⟨_, rfl⟩, fun _ => ⟨_, rfl⟩, fun _ => ⟨_, rfl⟩, fun _ => ⟨_, rfl⟩, fun _ => ⟨_, rfl⟩,
   fun _ => ⟨_, rfl⟩, fun _ => ⟨_, rfl⟩, fun _ _ => ⟨_, rfl⟩,
   fun _ _ _ => ⟨_, rfl⟩, fun _ _ _ => ⟨_, rfl⟩⟩

/-- Claim C10: `from_label` makes no pool call — the pool state, call trace
included, is returned unchanged and the result wraps the label itself —
whereas `from_label_and_args` with an empty list makes exactly one
`alloc_string` call on `[Ref label]` and wraps the pool's answer; the two
results are equal exactly when the pool maps that one-component request back
to the label. -/
theorem from_label_no_pool_call_vs_args_nil_one_call (b : EventIdBuilder)
    (label : StringId) :
    EventIdBuilder.from_label b label = (⟨label⟩, b.profiler)
      ∧ (EventIdBuilder.from_label_and_args b label []).2.calls
          = b.profiler.calls ++ [[StringComponent.Ref label]]
      ∧ (EventIdBuilder.from_label_and_args b label []).1
          = ⟨(b.profiler.alloc_string [StringComponent.Ref label]).1⟩
      ∧ ((EventIdBuilder.from_label_and_args b label []).1
            = (EventIdBuilder.from_label b label).1
          ↔ (b.profiler.alloc_string [StringComponent.Ref label]).1 = label) := by
  rw [from_label_and_args_eq_alloc]
  refine ⟨rfl, alloc_string_calls _ _, rfl, ?_⟩
  show (⟨(b.profiler.alloc_string [StringComponent.Ref label]).1⟩ : EventId) = ⟨label⟩
      ↔ (b.profiler.alloc_string [StringComponent.Ref label]).1 = label
  simp only [EventId.mk.injEq]
